import Mathlib

/-!
Shallow embedding of `src/bot.js` of the merge-pdf-telegram-bot repository.

The JavaScript source is translated function by function:

* strings are modelled as Lean `String` / `List Char`;
* the three regular expressions of the source
  (`/\/file\/d\/(.*)\/view/`, `/confirm=([0-9A-Za-z_]+)&/`, `/id=([^&]+)/`)
  are modelled by explicit leftmost-match scanners with greedy capture;
* the network (`axios.get`) is an explicit environment
  `Net : String → Except String HttpResponse`;
* `Promise.all` over concurrently settling tasks is modelled explicitly:
  each task carries a tick count (its completion time), tasks settle in
  tick order, and the combinator re-assembles results by task index;
* the shared-state mutation of the merge step (`mergedPdf.addPage` inside
  concurrently running tasks) is modelled by appending each source's pages
  at the moment its task settles, i.e. in completion order;
* thrown exceptions are `Except.error` values; messages sent to the user
  are an explicit trace of `Msg` values.
-/

namespace Bot

/-- Character-list prefix test: `hasPrefixL p s` is true when `p` is a prefix of `s`. -/
def hasPrefixL : List Char → List Char → Bool
  | [], _ => true
  | _ :: _, [] => false
  | p :: ps, c :: cs => p == c && hasPrefixL ps cs

/-- Substring test over character lists, modelling JavaScript `String.prototype.includes`. -/
def containsSub (s p : List Char) : Bool :=
  match s with
  | [] => hasPrefixL p []
  | c :: cs => hasPrefixL p (c :: cs) || containsSub cs p

/-- Substring test over strings (JavaScript `includes`). -/
def strContains (s p : String) : Bool := containsSub s.toList p.toList

/-- Delimiter class of the split regex `/[\n,]+/` in `parseLinks`. -/
def isDelim (c : Char) : Bool := c = '\n' || c = ','

/-- JavaScript `text.split(/[\n,]+/)`: split on maximal runs of delimiters,
keeping a (possibly empty) fragment before the first run and after the last.
A delimiter that is immediately followed by another delimiter belongs to the
same run and contributes no fragment of its own. -/
def splitRuns : List Char → List (List Char)
  | [] => [[]]
  | c :: cs =>
    if isDelim c then
      match cs with
      | d :: _ => if isDelim d then splitRuns cs else [] :: splitRuns cs
      | [] => [] :: splitRuns cs
    else
      match splitRuns cs with
      | [] => [[c]]
      | t :: ts => (c :: t) :: ts

/-- JavaScript `String.prototype.trim` on a character list. -/
def trimL (l : List Char) : List Char :=
  ((l.dropWhile Char.isWhitespace).reverse.dropWhile Char.isWhitespace).reverse

/-- Source `parseLinks` (src/bot.js line 29-30): split the raw text on runs of
newlines and commas, trim each fragment, and keep the non-empty ones
(JavaScript truthiness of a string is non-emptiness). -/
def parseLinks (text : String) : List String :=
  ((splitRuns text.toList).map (fun t => String.mk (trimL t))).filter (fun s => s ≠ "")

/-- Pattern `/file/d/` of the Google-Drive view-link regex. -/
def filedPat : List Char := "/file/d/".toList

/-- Pattern `/view` of the Google-Drive view-link regex. -/
def viewPat : List Char := "/view".toList

/-- Greedy capture of `(.*)` followed by `/view`: the longest newline-free
prefix `u` of the input such that `/view` starts immediately after `u`.
Returns `none` when no such split exists (then the regex engine moves on). -/
def greedyCapture : List Char → Option (List Char)
  | [] => none
  | c :: cs =>
    match (if c = '\n' then none else (greedyCapture cs).map (fun u => c :: u)) with
    | some u => some u
    | none => if hasPrefixL viewPat (c :: cs) then some [] else none

/-- Leftmost match of the regex `/\/file\/d\/(.*)\/view/` (source line 33):
scan for the first position where `/file/d/` matches and the greedy capture
succeeds; otherwise advance one character, as the regex engine does. -/
def gdMatch : List Char → Option (List Char)
  | [] => none
  | c :: cs =>
    match (if hasPrefixL filedPat (c :: cs) then greedyCapture ((c :: cs).drop 8) else none) with
    | some cap => some cap
    | none => gdMatch cs

/-- Source `convertGoogleDriveLink` (src/bot.js lines 32-35). -/
def convertGoogleDriveLink (link : String) : String :=
  match gdMatch link.toList with
  | some cap => "https://drive.google.com/uc?export=download&id=" ++ String.mk cap
  | none => link

/-- Character class `[0-9A-Za-z_]` of the confirmation-token regex. -/
def isWordChar (c : Char) : Bool := c.isAlphanum || c = '_'

/-- Pattern `confirm=` of the confirmation-token regex. -/
def confirmPat : List Char := "confirm=".toList

/-- Leftmost match of `/confirm=([0-9A-Za-z_]+)&/` (source line 58): after a
`confirm=` literal, a non-empty maximal run of word characters that must be
followed by `&` (shorter captures cannot help, since every dropped character
is a word character, not `&`). -/
def confirmMatch : List Char → Option (List Char)
  | [] => none
  | c :: cs =>
    match (if hasPrefixL confirmPat (c :: cs) then
             (let rest := (c :: cs).drop 8
              let run := rest.takeWhile isWordChar
              if run.isEmpty then none
              else match rest.drop run.length with
                   | '&' :: _ => some run
                   | _ => none)
           else none) with
    | some t => some t
    | none => confirmMatch cs

/-- Pattern `id=` of the file-id regex. -/
def idPat : List Char := "id=".toList

/-- Leftmost match of `/id=([^&]+)/` (source line 61): after an `id=` literal,
a non-empty maximal run of characters other than `&`. -/
def idMatch : List Char → Option (List Char)
  | [] => none
  | c :: cs =>
    match (if hasPrefixL idPat (c :: cs) then
             (let run := ((c :: cs).drop 3).takeWhile (fun ch => ch ≠ '&')
              if run.isEmpty then none else some run)
           else none) with
    | some r => some r
    | none => idMatch cs

/-- Response of one `axios.get`, reduced to the fields the source inspects. -/
structure HttpResponse where
  contentType : Option String
  contentDisposition : Option String
  body : String
deriving DecidableEq

/-- Network environment: what `axios.get url` yields — a response or a thrown
transport error with its message. -/
def Net : Type := String → Except String HttpResponse

/-- Source `downloadDirectPDF` (src/bot.js lines 44-52): GET the link, then
fail unless the content type exists and mentions `pdf`. -/
def downloadDirectPDF (link : String) (net : Net) : Except String String :=
  match net link with
  | .error e => .error e
  | .ok response =>
    match response.contentType with
    | none => .error "The link does not point to a PDF file."
    | some ct =>
      if strContains ct "pdf" then .ok response.body
      else .error "The link does not point to a PDF file."

/-- The download URL computed inside `downloadGoogleDrivePDF` (lines 58-63)
from the initial response body and the link: when a confirmation token is
found, rebuild the direct-download URL with the captured file id (JavaScript
interpolates the literal `null` when the id regex fails); otherwise reuse the
link itself. -/
def gdDownloadUrl (link : String) (initBody : String) : String :=
  match confirmMatch initBody.toList with
  | some t =>
    "https://drive.google.com/uc?export=download&id="
      ++ (match idMatch link.toList with
          | some f => String.mk f
          | none => "null")
      ++ "&confirm=" ++ String.mk t
  | none => link

/-- Source `downloadGoogleDrivePDF` (src/bot.js lines 54-78): initial GET,
confirmation-token rescan, second GET, content-disposition check; every
failure inside the `try` is normalized by the `catch` to the single message
`Failed to download from Google Drive.`. -/
def downloadGoogleDrivePDF (link : String) (net : Net) : Except String String :=
  match net link with
  | .error _ => .error "Failed to download from Google Drive."
  | .ok initialResponse =>
    match net (gdDownloadUrl link initialResponse.body) with
    | .error _ => .error "Failed to download from Google Drive."
    | .ok response =>
      match response.contentDisposition with
      | none => .error "Failed to download from Google Drive."
      | some cd =>
        if containsSub cd.toList ".pdf".toList then .ok response.body
        else .error "Failed to download from Google Drive."

/-- Source `downloadFile` (src/bot.js lines 37-42): route Google-Drive links
through the view-link rewrite and the Drive strategy, everything else through
the direct strategy. -/
def downloadFile (link : String) (net : Net) : Except String String :=
  if strContains link "drive.google.com" then
    downloadGoogleDrivePDF (convertGoogleDriveLink link) net
  else
    downloadDirectPDF link net

/-- Per-link outcome produced by `downloadPDFs` (src/bot.js lines 89-95): the
object `{ status: 'success', link, data }` or `{ status: 'failed', link, error }`. -/
inductive DownloadResult where
  | success (link : String) (data : String)
  | failed (link : String) (error : String)
deriving DecidableEq

instance : Inhabited DownloadResult := ⟨.failed "" ""⟩

/-- Status test `result.status === 'success'` (source line 116). -/
def isSuccessR : DownloadResult → Bool
  | .success _ _ => true
  | .failed _ _ => false

/-- Status test `result.status === 'failed'` (source line 117). -/
def isFailedR : DownloadResult → Bool
  | .success _ _ => false
  | .failed _ _ => true

/-- Field `result.link` of a download result. -/
def linkOf : DownloadResult → String
  | .success l _ => l
  | .failed l _ => l

/-- Field `result.data` of a download result (only ever read on successes in
the source; the failed case is given a dummy value). -/
def dataOf : DownloadResult → String
  | .success _ d => d
  | .failed _ _ => ""

/-- Stable insertion of task index `i` into a completion-order list `acc`
already sorted by tick count: `i` goes after every index with a tick count
less than or equal to its own. -/
def insertByTick (ticks : List Nat) : List Nat → Nat → List Nat
  | [], i => [i]
  | j :: rest, i =>
    if ticks.getD j 0 ≤ ticks.getD i 0 then j :: insertByTick ticks rest i
    else i :: j :: rest

/-- Completion order of `n` concurrently running tasks whose task `i` settles
after `ticks[i]` event-loop ticks: indices sorted stably by tick count (equal
tick counts settle in issue order, as the event loop runs microtasks FIFO). -/
def settleOrder (n : Nat) (ticks : List Nat) : List Nat :=
  (List.range n).foldl (insertByTick ticks) []

/-- Semantics of `Promise.all` over already-determined task results: tasks
settle in `settleOrder`, each settling writes its result into its own index
slot, and the combinator resolves with the slots read back in index order. -/
def promiseAll {α : Type} [Inhabited α] (tasks : List α) (ticks : List Nat) : List α :=
  let settled := (settleOrder tasks.length ticks).map (fun i => (i, tasks.getD i default))
  (List.range tasks.length).map
    (fun i => (((settled.find? (fun p => p.1 == i)).map Prod.snd).getD default))

/-- Body of the `links.map(async (link) => ...)` callback in `downloadPDFs`
(src/bot.js lines 89-95): try the download, wrap the result or the thrown
error message as a value tagged with the originating link. -/
def fetchTask (net : Net) (link : String) : DownloadResult :=
  match downloadFile link net with
  | .ok d => .success link d
  | .error e => .failed link e

/-- Source `downloadPDFs` (src/bot.js lines 88-99): fan out one fetch task per
link and await them all with `Promise.all`; `ticks` gives each task's
completion time in event-loop ticks. -/
def downloadPDFs (links : List String) (net : Net) (ticks : List Nat) : List DownloadResult :=
  promiseAll (links.map (fetchTask net)) ticks

/-- Source `mergePDFs` (src/bot.js lines 101-111), with the event loop made
explicit: one merge task per buffer is started in input order; a task loads
its buffer (`load` gives the page list of a buffer) and appends all its pages
to the shared destination document when it settles. Task `i` settles after
`ticks[i]` ticks, so the destination receives each source's page block in
completion order, the pages within one source staying in that source's own
order. -/
def mergePDFs (load : String → List Nat) (pdfBuffers : List String) (ticks : List Nat) : List Nat :=
  ((settleOrder pdfBuffers.length ticks).map (fun i => load (pdfBuffers.getD i ""))).flatten

/-- Filter `downloadResults.filter(result => result.status === 'success')`
(source line 116). -/
def successfulDownloads (results : List DownloadResult) : List DownloadResult :=
  results.filter isSuccessR

/-- Filter `downloadResults.filter(result => result.status === 'failed')`
(source line 117). -/
def failedDownloads (results : List DownloadResult) : List DownloadResult :=
  results.filter isFailedR

/-- Buffer list `successfulDownloads.map(result => result.data)` handed to the
merger (source line 131). -/
def mergeInput (results : List DownloadResult) : List String :=
  (successfulDownloads results).map dataOf

/-- User-visible emissions of the bot, one constructor per `sendMessage` /
`sendDocument` call site of the source, carrying the data interpolated into
the message text. -/
inductive Msg where
  | prompt
  | downloading
  | failedList (n : Nat) (links : List String)
  | noValid
  | document
  | processError
  | summary (succCount failCount : Nat)
deriving DecidableEq

/-- Summary recogniser for trace assertions. -/
def isSummaryMsg : Msg → Bool
  | .summary _ _ => true
  | _ => false

/-- Source `sendPDFDocument` (src/bot.js lines 152-162): `writeFileSync`
materializes `merged.pdf`; the `try` block uploads it and then unlinks it; a
failing upload is caught and only logged, so the unlink is skipped. Returns
the messages delivered to the user and whether the transient file is still on
disk after the call. -/
def sendPDFDocument (uploadOk : Bool) : List Msg × Bool :=
  if uploadOk then ([Msg.document], false) else ([], true)

/-- Failed-links notice of `handlePDFLinks` (source lines 119-123): sent only
when at least one download failed, listing every failed link. -/
def failNotice (results : List DownloadResult) : List Msg :=
  if 0 < (failedDownloads results).length then
    [Msg.failedList (failedDownloads results).length ((failedDownloads results).map linkOf)]
  else []

/-- Output of one batch: the ordered user-visible message trace and, when the
merger was invoked, exactly the buffer list it was given. -/
structure BatchOutput where
  msgs : List Msg
  mergeCalledWith : Option (List String)
deriving DecidableEq

/-- Branch structure of `handlePDFLinks` (src/bot.js lines 113-140) after the
download results are settled: failed-links notice; early return with the
no-valid-PDFs notice when nothing succeeded; otherwise merge and deliver
(`mergeOk` abstracts whether `mergePDFs` resolves, `uploadOk` whether
`bot.sendDocument` resolves), then the summary. -/
def handleResults (results : List DownloadResult) (mergeOk uploadOk : Bool) : BatchOutput :=
  if (successfulDownloads results).length = 0 then
    { msgs := failNotice results ++ [Msg.noValid], mergeCalledWith := none }
  else
    { msgs := failNotice results
        ++ (if mergeOk then (sendPDFDocument uploadOk).1 else [Msg.processError])
        ++ [Msg.summary (successfulDownloads results).length (failedDownloads results).length],
      mergeCalledWith := some (mergeInput results) }

/-- Source `handlePDFLinks` (src/bot.js lines 113-140). -/
def handlePDFLinks (links : List String) (net : Net) (ticks : List Nat)
    (mergeOk uploadOk : Bool) : BatchOutput :=
  handleResults (downloadPDFs links net ticks) mergeOk uploadOk

/-- Source `handleMessage` (src/bot.js lines 12-27): react only to truthy
(non-empty) text in a private, group or supergroup chat; prompt on an empty
candidate list, otherwise announce the download and process the batch.
Returns the message trace and the number of fetch outcomes produced. -/
def handleMessage (chatType : String) (text : Option String) (net : Net)
    (ticks : List Nat) (mergeOk uploadOk : Bool) : List Msg × Nat :=
  match text with
  | none => ([], 0)
  | some t =>
    if t = "" then ([], 0)
    else if chatType = "private" || chatType = "group" || chatType = "supergroup" then
      let links := parseLinks t
      if links.length = 0 then ([Msg.prompt], 0)
      else
        let out := handlePDFLinks links net ticks mergeOk uploadOk
        (Msg.downloading :: out.msgs, (downloadPDFs links net ticks).length)
    else ([], 0)

/-! ### The `Promise.all` model resolves with results in task order -/

theorem mem_insertByTick (ticks : List Nat) (acc : List Nat) (i j : Nat) :
    i ∈ insertByTick ticks acc j ↔ i = j ∨ i ∈ acc := by
  induction acc with
  | nil => simp [insertByTick]
  | cons k rest ih =>
    simp only [insertByTick]
    split
    · simp [ih]
      tauto
    · simp

theorem settleOrder_succ (n : Nat) (ticks : List Nat) :
    settleOrder (n + 1) ticks = insertByTick ticks (settleOrder n ticks) n := by
  simp [settleOrder, List.range_succ, List.foldl_append]

theorem mem_settleOrder (n : Nat) (ticks : List Nat) (i : Nat) :
    i ∈ settleOrder n ticks ↔ i < n := by
  induction n with
  | zero => simp [settleOrder]
  | succ m ih =>
    rw [settleOrder_succ, mem_insertByTick, ih]
    omega

theorem find?_map_pair {α : Type} (f : Nat → α) (i : Nat) :
    ∀ ord : List Nat, i ∈ ord →
      (ord.map (fun k => (k, f k))).find? (fun p => p.1 == i) = some (i, f i) := by
  intro ord
  induction ord with
  | nil => simp
  | cons j rest ih =>
    intro hmem
    by_cases hji : j = i
    · subst hji
      simp [List.find?]
    · have : i ∈ rest := by
        rcases List.mem_cons.mp hmem with h | h
        · exact absurd h.symm hji
        · exact h
      simp only [List.map_cons, List.find?]
      have hne : (j == i) = false := by simp [hji]
      simp [hne, ih this]

theorem getD_range_map {α : Type} (l : List α) (d : α) :
    (List.range l.length).map (fun i => l.getD i d) = l := by
  induction l with
  | nil => simp
  | cons x xs ih =>
    simp only [List.length_cons, List.range_succ_eq_map, List.map_cons, List.map_map]
    refine congrArg₂ _ rfl ?_
    simpa [Function.comp_def, List.getD_cons_succ] using ih

theorem promiseAll_eq {α : Type} [Inhabited α] (tasks : List α) (ticks : List Nat) :
    promiseAll tasks ticks = tasks := by
  unfold promiseAll
  have hstep : ∀ i ∈ List.range tasks.length,
      ((((settleOrder tasks.length ticks).map
          (fun k => (k, tasks.getD k default))).find? (fun p => p.1 == i)).map Prod.snd).getD default
        = tasks.getD i default := by
    intro i hi
    have hin : i ∈ settleOrder tasks.length ticks :=
      (mem_settleOrder _ _ _).mpr (List.mem_range.mp hi)
    rw [find?_map_pair (fun k => tasks.getD k default) i _ hin]
    rfl
  rw [List.map_congr_left hstep, getD_range_map]

theorem downloadPDFs_eq (links : List String) (net : Net) (ticks : List Nat) :
    downloadPDFs links net ticks = links.map (fetchTask net) := by
  unfold downloadPDFs
  exact promiseAll_eq _ _

/-! ### Elementary facts about outcomes and filters -/

theorem linkOf_fetchTask (net : Net) (l : String) : linkOf (fetchTask net l) = l := by
  unfold fetchTask
  cases downloadFile l net <;> rfl

theorem map_linkOf_fetchTask (net : Net) (links : List String) :
    (links.map (fetchTask net)).map linkOf = links := by
  rw [List.map_map]
  simp [Function.comp_def, linkOf_fetchTask]

theorem mergeInput_eq_filterMap (results : List DownloadResult) :
    mergeInput results
      = results.filterMap
          (fun r => match r with | .success _ d => some d | .failed _ _ => none) := by
  induction results with
  | nil => rfl
  | cons r rs ih =>
    cases r <;>
      simp [mergeInput, successfulDownloads, isSuccessR, dataOf, List.filter_cons,
        List.filterMap_cons] <;>
      simpa [mergeInput, successfulDownloads] using ih

/-! ### Claim theorems -/

/-- C5: batch retrieval produces exactly one outcome per candidate URL, with
outcome `i` corresponding to link `i` whatever the tick (completion-time)
assignment; a failing fetch becomes a `failed` value carrying the originating
link and the thrown reason, and `downloadPDFs` is a total function — no
single failing fetch aborts the batch or any sibling outcome. -/
theorem downloadPDFs_one_outcome_per_link (links : List String) (net : Net) (ticks : List Nat) :
    (downloadPDFs links net ticks).length = links.length ∧
    (∀ i : Nat, (downloadPDFs links net ticks)[i]? = (links[i]?).map (fetchTask net)) ∧
    (∀ l e, downloadFile l net = .error e → fetchTask net l = .failed l e) := by
  refine ⟨?_, ?_, ?_⟩
  · rw [downloadPDFs_eq]
    simp
  · intro i
    rw [downloadPDFs_eq]
    simp
  · intro l e h
    simp [fetchTask, h]

/-- Witness for C5 at a concrete one-link batch whose only fetch throws. -/
theorem downloadPDFs_one_outcome_per_link_witness :
    (downloadPDFs ["http://a"] (fun _ => Except.error "boom") [7]).length = 1 ∧
    (downloadPDFs ["http://a"] (fun _ => Except.error "boom") [7])[0]?
      = some (DownloadResult.failed "http://a" "boom") := by
  have h := downloadPDFs_one_outcome_per_link ["http://a"] (fun _ => Except.error "boom") [7]
  refine ⟨by simpa using h.1, ?_⟩
  have h0 := h.2.1 0
  have hfetch : fetchTask (fun _ => Except.error "boom") "http://a"
      = DownloadResult.failed "http://a" "boom" :=
    h.2.2 "http://a" "boom" rfl
  rw [h0]
  simp [hfetch]

/-- C6: the buffers handed to the merger are exactly the success entries of
the outcome sequence in their original relative order, independent of the
tick assignment that decides in which wall-clock order the fetches settle. -/
theorem merger_gets_success_bytes_in_order (links : List String) (net : Net)
    (ticks ticks' : List Nat) (mergeOk uploadOk : Bool) :
    (handlePDFLinks links net ticks mergeOk uploadOk).mergeCalledWith
      = (handlePDFLinks links net ticks' mergeOk uploadOk).mergeCalledWith ∧
    (∀ bufs, (handlePDFLinks links net ticks mergeOk uploadOk).mergeCalledWith = some bufs →
      bufs = (downloadPDFs links net ticks).filterMap
        (fun r => match r with | .success _ d => some d | .failed _ _ => none)) := by
  constructor
  · unfold handlePDFLinks
    rw [downloadPDFs_eq links net ticks, downloadPDFs_eq links net ticks']
  · intro bufs hbufs
    unfold handlePDFLinks handleResults at hbufs
    rw [← mergeInput_eq_filterMap]
    split at hbufs
    · simp at hbufs
    · simpa using hbufs.symm

/-- Witness for C6 at a concrete two-link batch with one success and one
failure, settling in reversed wall-clock order. -/
theorem merger_gets_success_bytes_in_order_witness :
    (handlePDFLinks ["http://a", "http://b"]
        (fun u => if u = "http://a" then Except.error "down"
                  else Except.ok ⟨some "application/pdf", none, "BYTES"⟩)
        [5, 1] true true).mergeCalledWith = some ["BYTES"] ∧
    ["BYTES"] = (downloadPDFs ["http://a", "http://b"]
        (fun u => if u = "http://a" then Except.error "down"
                  else Except.ok ⟨some "application/pdf", none, "BYTES"⟩)
        [5, 1]).filterMap
          (fun r => match r with | .success _ d => some d | .failed _ _ => none) := by
  have h := merger_gets_success_bytes_in_order ["http://a", "http://b"]
    (fun u => if u = "http://a" then Except.error "down"
              else Except.ok ⟨some "application/pdf", none, "BYTES"⟩)
    [5, 1] [0, 0] true true
  exact ⟨by decide, h.2 ["BYTES"] (by decide)⟩

/-- C10: every outcome's `link` field is the original user-supplied link, so
the failed-links report only ever shows original links — the Google-Drive
rewrite happens inside `downloadFile` at fetch time and is never surfaced. -/
theorem outcomes_carry_original_link (links : List String) (net : Net) (ticks : List Nat)
    (mergeOk uploadOk : Bool) :
    (downloadPDFs links net ticks).map linkOf = links ∧
    (∀ n ls, Msg.failedList n ls ∈ (handlePDFLinks links net ticks mergeOk uploadOk).msgs →
      ls = (failedDownloads (downloadPDFs links net ticks)).map linkOf ∧
      ∀ l ∈ ls, l ∈ links) := by
  have hmap : (downloadPDFs links net ticks).map linkOf = links := by
    rw [downloadPDFs_eq]
    exact map_linkOf_fetchTask net links
  refine ⟨hmap, ?_⟩
  intro n ls hmem
  have hls : ls = (failedDownloads (downloadPDFs links net ticks)).map linkOf := by
    have hdeliver : Msg.failedList n ls ∉
        (if mergeOk then (sendPDFDocument uploadOk).1 else [Msg.processError]) := by
      cases mergeOk <;> cases uploadOk <;> simp [sendPDFDocument]
    unfold handlePDFLinks handleResults failNotice at hmem
    split at hmem <;> split at hmem <;> simp_all
  refine ⟨hls, ?_⟩
  intro l hl
  rw [hls] at hl
  rcases List.mem_map.mp hl with ⟨r, hr, rfl⟩
  have hrres : r ∈ downloadPDFs links net ticks := List.mem_of_mem_filter hr
  rw [← hmap]
  exact List.mem_map.mpr ⟨r, hrres, rfl⟩

/-- Witness for C10 at a concrete batch containing a Google-Drive view link
whose rewrite differs from the original: the failed report still shows the
original link text. -/
theorem outcomes_carry_original_link_witness :
    convertGoogleDriveLink "https://drive.google.com/file/d/XY/view"
      ≠ "https://drive.google.com/file/d/XY/view" ∧
    (downloadPDFs ["https://drive.google.com/file/d/XY/view"]
        (fun _ => Except.error "down") [0]).map linkOf
      = ["https://drive.google.com/file/d/XY/view"] ∧
    ["https://drive.google.com/file/d/XY/view"]
      = (failedDownloads (downloadPDFs ["https://drive.google.com/file/d/XY/view"]
          (fun _ => Except.error "down") [0])).map linkOf := by
  have h := outcomes_carry_original_link ["https://drive.google.com/file/d/XY/view"]
    (fun _ => Except.error "down") [0] true true
  exact ⟨by decide, h.1,
    (h.2 1 ["https://drive.google.com/file/d/XY/view"] (by decide)).1⟩

/-- C4: when every fetch of a non-empty batch fails, the user sees the
failed-links notice listing all `n` links followed by the no-valid-PDFs
notice, and the merger is never invoked. -/
theorem all_failed_skips_merger (links : List String) (net : Net) (ticks : List Nat)
    (mergeOk uploadOk : Bool) (hne : links ≠ [])
    (hfail : ∀ l ∈ links, ∃ e, downloadFile l net = .error e) :
    handlePDFLinks links net ticks mergeOk uploadOk
      = ⟨[Msg.failedList links.length links, Msg.noValid], none⟩ := by
  unfold handlePDFLinks
  rw [downloadPDFs_eq]
  have hfailAll : ∀ r ∈ links.map (fetchTask net), isFailedR r = true := by
    intro r hr
    rcases List.mem_map.mp hr with ⟨l, hl, rfl⟩
    rcases hfail l hl with ⟨e, he⟩
    simp [fetchTask, he, isFailedR]
  have hsucc : successfulDownloads (links.map (fetchTask net)) = [] := by
    refine List.filter_eq_nil_iff.mpr ?_
    intro r hr
    have := hfailAll r hr
    cases r <;> simp_all [isSuccessR, isFailedR]
  have hfailEq : failedDownloads (links.map (fetchTask net)) = links.map (fetchTask net) :=
    List.filter_eq_self.mpr hfailAll
  have hnotice : failNotice (links.map (fetchTask net))
      = [Msg.failedList links.length links] := by
    unfold failNotice
    rw [hfailEq, map_linkOf_fetchTask]
    have hlen : 0 < (links.map (fetchTask net)).length := by
      rw [List.length_map]
      exact List.length_pos.mpr hne
    simp [hlen, hne]
  unfold handleResults
  rw [hsucc, hnotice]
  simp

/-- Witness for C4 at a concrete two-link batch whose network is down. -/
theorem all_failed_skips_merger_witness :
    handlePDFLinks ["http://a", "http://b"] (fun _ => Except.error "down") [0, 1] true true
      = ⟨[Msg.failedList 2 ["http://a", "http://b"], Msg.noValid], none⟩ := by
  refine all_failed_skips_merger ["http://a", "http://b"] (fun _ => Except.error "down")
    [0, 1] true true (by decide) ?_
  intro l hl
  refine ⟨"down", ?_⟩
  fin_cases hl <;> rfl

/-- C2 (counterexample): a batch whose only fetch fails takes the
zero-success branch, which returns right after the no-valid-PDFs notice —
no summary message is emitted at all, refuting "emitted exactly once …
regardless of which branch is taken". -/
theorem summary_missing_on_all_failed_batch :
    (handlePDFLinks ["http://x"] (fun _ => Except.error "net down") [0] true true).msgs
      = [Msg.failedList 1 ["http://x"], Msg.noValid] ∧
    ((handlePDFLinks ["http://x"] (fun _ => Except.error "net down") [0] true true).msgs.filter
        isSummaryMsg) = [] := by
  constructor <;> rfl

/-- C2 (amended): in every batch with at least one successful fetch the
summary is emitted exactly once and as the last message, whichever of the
merge-failure / upload-failure / full-success branches is taken; in a batch
with zero successes no summary is emitted (the no-valid-PDFs notice is last
instead). -/
theorem summary_last_iff_some_success (links : List String) (net : Net) (ticks : List Nat)
    (mergeOk uploadOk : Bool) :
    (0 < (successfulDownloads (downloadPDFs links net ticks)).length →
      (handlePDFLinks links net ticks mergeOk uploadOk).msgs.filter isSummaryMsg
          = [Msg.summary (successfulDownloads (downloadPDFs links net ticks)).length
              (failedDownloads (downloadPDFs links net ticks)).length] ∧
      (handlePDFLinks links net ticks mergeOk uploadOk).msgs.getLast?
          = some (Msg.summary (successfulDownloads (downloadPDFs links net ticks)).length
              (failedDownloads (downloadPDFs links net ticks)).length)) ∧
    ((successfulDownloads (downloadPDFs links net ticks)).length = 0 →
      (handlePDFLinks links net ticks mergeOk uploadOk).msgs.filter isSummaryMsg = [] ∧
      (handlePDFLinks links net ticks mergeOk uploadOk).msgs.getLast? = some Msg.noValid) := by
  have hnotice : (failNotice (downloadPDFs links net ticks)).filter isSummaryMsg = [] := by
    unfold failNotice
    split <;> simp [isSummaryMsg]
  have hdeliver : ((if mergeOk then (sendPDFDocument uploadOk).1
      else [Msg.processError]).filter isSummaryMsg) = [] := by
    cases mergeOk <;> cases uploadOk <;> simp [sendPDFDocument, isSummaryMsg]
  constructor
  · intro hpos
    have hcond : ¬(successfulDownloads (downloadPDFs links net ticks)).length = 0 := by omega
    unfold handlePDFLinks handleResults
    rw [if_neg hcond]
    constructor
    · simp only [List.filter_append, hnotice, hdeliver]
      simp [isSummaryMsg]
    · exact List.getLast?_concat _
  · intro hzero
    unfold handlePDFLinks handleResults
    rw [if_pos hzero]
    refine ⟨?_, List.getLast?_concat _⟩
    simp only [List.filter_append, hnotice]
    simp [isSummaryMsg]

/-- Witness for the amended C2 at a concrete batch with one success and one
failure whose merge succeeds but whose upload fails. -/
theorem summary_last_iff_some_success_witness :
    (handlePDFLinks ["http://a", "http://b"]
        (fun u => if u = "http://a" then Except.ok ⟨some "application/pdf", none, "B"⟩
                  else Except.error "down")
        [0, 0] true false).msgs.filter isSummaryMsg = [Msg.summary 1 1] ∧
    (handlePDFLinks ["http://a", "http://b"]
        (fun u => if u = "http://a" then Except.ok ⟨some "application/pdf", none, "B"⟩
                  else Except.error "down")
        [0, 0] true false).msgs.getLast? = some (Msg.summary 1 1) := by
  have h := (summary_last_iff_some_success ["http://a", "http://b"]
    (fun u => if u = "http://a" then Except.ok ⟨some "application/pdf", none, "B"⟩
              else Except.error "down")
    [0, 0] true false).1 (by decide)
  constructor
  · rw [h.1]
    rfl
  · rw [h.2]
    rfl

/-- C9 (counterexample): the empty raw text normalizes to zero candidate
URLs, but JavaScript truthiness makes `msg.text && …` short-circuit, so the
bot emits nothing at all instead of the empty-input prompt. -/
theorem empty_text_gets_no_prompt :
    parseLinks "" = [] ∧
    handleMessage "private" (some "") (fun _ => Except.error "e") [] true true = ([], 0) := by
  constructor <;> rfl

/-- C9 (amended): for every message with non-empty text in a private, group
or supergroup chat, a normalization yielding zero candidates makes the bot
emit exactly the empty-input prompt and perform no fetch, and a non-empty
candidate list yields exactly one fetch outcome per non-empty trimmed token;
messages with empty text (or in other chat types) are ignored entirely. -/
theorem prompt_or_one_outcome_per_token (chatType : String) (t : String) (net : Net)
    (ticks : List Nat) (mergeOk uploadOk : Bool)
    (hchat : chatType = "private" ∨ chatType = "group" ∨ chatType = "supergroup")
    (htext : t ≠ "") :
    (parseLinks t = [] →
      handleMessage chatType (some t) net ticks mergeOk uploadOk = ([Msg.prompt], 0)) ∧
    (parseLinks t ≠ [] →
      (handleMessage chatType (some t) net ticks mergeOk uploadOk).2
        = (parseLinks t).length) := by
  have hchat' : (chatType = "private" || chatType = "group" || chatType = "supergroup") = true := by
    rcases hchat with h | h | h <;> simp [h]
  constructor
  · intro hempty
    unfold handleMessage
    simp [htext, hchat', hempty]
  · intro hne
    unfold handleMessage
    have hlen : ¬(parseLinks t).length = 0 := by
      simpa [List.length_eq_zero] using hne
    simp [htext, hchat', hlen, downloadPDFs_eq]

/-- Witness for the amended C9: a whitespace-only text prompts, a two-token
text yields two outcomes. -/
theorem prompt_or_one_outcome_per_token_witness :
    handleMessage "private" (some " ") (fun _ => Except.error "e") [] true true
      = ([Msg.prompt], 0) ∧
    (handleMessage "group" (some "http://a, http://b") (fun _ => Except.error "e")
        [0, 0] true true).2 = 2 := by
  constructor
  · exact (prompt_or_one_outcome_per_token "private" " " (fun _ => Except.error "e")
      [] true true (Or.inl rfl) (by decide)).1 (by decide)
  · have h := (prompt_or_one_outcome_per_token "group" "http://a, http://b"
      (fun _ => Except.error "e") [0, 0] true true (Or.inr (Or.inl rfl)) (by decide)).2
      (by decide)
    rw [h]
    rfl

/-- C1: the merge step appends each source's page block when that source's
concurrently running merge task settles, so the page order of the merged
output follows completion order, not input order: with the same two
single-page buffers `[A, B]`, equal tick counts yield A's page then B's, but
making B's task settle first yields B's page then A's — refuting
"independent of which source finishes loading first". -/
theorem mergePDFs_follows_completion_order :
    mergePDFs (fun b => if b = "A" then [1] else [2]) ["A", "B"] [0, 0] = [1, 2] ∧
    mergePDFs (fun b => if b = "A" then [1] else [2]) ["A", "B"] [2, 1] = [2, 1] := by
  constructor <;> rfl

/-- C3: the transient `merged.pdf` materialized by `sendPDFDocument` is
unlinked only after a successful upload; when the transport upload fails the
`catch` block merely logs and the unlink is skipped, so the file is left on
disk (second component `true`) — refuting release on every exit path. -/
theorem sendPDFDocument_leaks_on_upload_failure :
    sendPDFDocument true = ([Msg.document], false) ∧
    sendPDFDocument false = ([], true) := by
  constructor <;> rfl

/-- C7: a direct-strategy response whose content type is absent or does not
mention `pdf` is always classified as a failure, and a cloud-storage-strategy
final response whose content-disposition is absent or lacks a `.pdf` hint is
always classified as a failure — in both cases regardless of the (possibly
non-empty) response body. -/
theorem non_pdf_response_is_failure :
    (∀ (link : String) (net : Net) (resp : HttpResponse), net link = .ok resp →
      (∀ ct, resp.contentType = some ct → strContains ct "pdf" = false) →
      downloadDirectPDF link net = .error "The link does not point to a PDF file.") ∧
    (∀ (link : String) (net : Net) (init resp : HttpResponse), net link = .ok init →
      net (gdDownloadUrl link init.body) = .ok resp →
      (∀ cd, resp.contentDisposition = some cd →
        containsSub cd.toList ".pdf".toList = false) →
      downloadGoogleDrivePDF link net = .error "Failed to download from Google Drive.") := by
  constructor
  · intro link net resp hnet hct
    obtain ⟨ctOpt, cdOpt, body⟩ := resp
    simp only [downloadDirectPDF, hnet]
    cases ctOpt with
    | none => rfl
    | some ct =>
      have hc := hct ct rfl
      simp [strContains, hc]
      exact hc
  · intro link net init resp hnet1 hnet2 hcd
    obtain ⟨ictOpt, icdOpt, ibody⟩ := init
    obtain ⟨ctOpt, cdOpt, body⟩ := resp
    simp only [downloadGoogleDrivePDF, hnet1] at hnet2 ⊢
    simp only [hnet2]
    cases cdOpt with
    | none => rfl
    | some cd =>
      have hc := hcd cd rfl
      simp [hc]
      exact hc

/-- Witness for C7: an HTML response with a non-empty body is rejected by
both strategies. -/
theorem non_pdf_response_is_failure_witness :
    downloadDirectPDF "http://a" (fun _ => Except.ok ⟨some "text/html", some "a.html", "<html>"⟩)
      = .error "The link does not point to a PDF file." ∧
    downloadGoogleDrivePDF "http://g"
        (fun _ => Except.ok ⟨some "text/html", some "a.html", "<html>"⟩)
      = .error "Failed to download from Google Drive." := by
  constructor
  · refine non_pdf_response_is_failure.1 "http://a"
      (fun _ => Except.ok ⟨some "text/html", some "a.html", "<html>"⟩)
      ⟨some "text/html", some "a.html", "<html>"⟩ rfl ?_
    intro ct hct
    cases hct
    decide
  · refine non_pdf_response_is_failure.2 "http://g"
      (fun _ => Except.ok ⟨some "text/html", some "a.html", "<html>"⟩)
      ⟨some "text/html", some "a.html", "<html>"⟩
      ⟨some "text/html", some "a.html", "<html>"⟩ rfl rfl ?_
    intro cd hcd
    cases hcd
    decide

/-! ### Behaviour of the view-link regex model -/

theorem greedyCapture_none_of_no_view (l : List Char)
    (h : containsSub l viewPat = false) : greedyCapture l = none := by
  induction l with
  | nil => rfl
  | cons c cs ih =>
    have h' : hasPrefixL viewPat (c :: cs) = false ∧ containsSub cs viewPat = false := by
      simpa [containsSub, Bool.or_eq_false_iff] using h
    by_cases hnl : c = '\n'
    · subst hnl
      simp [greedyCapture, h'.1]
    · simp [greedyCapture, hnl, ih h'.2, h'.1]

theorem greedyCapture_last_view (capl postl : List Char)
    (hcap : capl.all (fun c => c != '\n') = true)
    (hpost : containsSub ('v' :: 'i' :: 'e' :: 'w' :: postl) viewPat = false) :
    greedyCapture (capl ++ ("/view".toList ++ postl)) = some capl := by
  induction capl with
  | nil =>
    have hnone : greedyCapture ('v' :: 'i' :: 'e' :: 'w' :: postl) = none :=
      greedyCapture_none_of_no_view _ hpost
    show (match (greedyCapture ('v' :: 'i' :: 'e' :: 'w' :: postl)).map (fun u => '/' :: u) with
          | some u => some u
          | none =>
            if hasPrefixL viewPat ('/' :: 'v' :: 'i' :: 'e' :: 'w' :: postl) = true then some []
            else none) = some []
    rw [hnone]
    rfl
  | cons c cs ih =>
    rw [List.all_cons, Bool.and_eq_true] at hcap
    have hnl : ¬c = '\n' := by simpa using hcap.1
    show (match (if c = '\n' then none
                 else (greedyCapture (cs ++ ("/view".toList ++ postl))).map (fun u => c :: u)) with
          | some u => some u
          | none =>
            if hasPrefixL viewPat (c :: (cs ++ ("/view".toList ++ postl))) = true then some []
            else none) = some (c :: cs)
    rw [if_neg hnl, ih hcap.2]
    rfl

theorem gdMatch_view (capl postl : List Char)
    (hcap : capl.all (fun c => c != '\n') = true)
    (hpost : containsSub ('v' :: 'i' :: 'e' :: 'w' :: postl) viewPat = false) :
    gdMatch ("https://drive.google.com/file/d/".toList ++ (capl ++ ("/view".toList ++ postl)))
      = some capl := by
  have hg := greedyCapture_last_view capl postl hcap hpost
  show (match greedyCapture (capl ++ ("/view".toList ++ postl)) with
        | some cap => some cap
        | none => gdMatch ("file/d/".toList ++ (capl ++ ("/view".toList ++ postl)))) = some capl
  rw [hg]

theorem gdMatch_none_of_not_contains (s : List Char)
    (h : containsSub s filedPat = false) : gdMatch s = none := by
  induction s with
  | nil => rfl
  | cons c cs ih =>
    have h' : hasPrefixL filedPat (c :: cs) = false ∧ containsSub cs filedPat = false := by
      simpa [containsSub, Bool.or_eq_false_iff] using h
    simp [gdMatch, h'.1, ih h'.2]

theorem containsSub_drop (s p : List Char) (k : Nat)
    (h : containsSub s p = false) : containsSub (s.drop k) p = false := by
  induction k generalizing s with
  | zero => simpa using h
  | succ n ih =>
    cases s with
    | nil => simpa using h
    | cons c cs =>
      have h' : containsSub cs p = false := by
        have := (Bool.or_eq_false_iff.mp (by simpa [containsSub] using h)).2
        exact this
      simpa [List.drop] using ih cs h'

theorem gdMatch_none_of_no_view (s : List Char)
    (h : containsSub s viewPat = false) : gdMatch s = none := by
  induction s with
  | nil => rfl
  | cons c cs ih =>
    have htail : containsSub cs viewPat = false := by
      have := (Bool.or_eq_false_iff.mp (by simpa [containsSub] using h)).2
      exact this
    by_cases hp : hasPrefixL filedPat (c :: cs) = true
    · have hg : greedyCapture (cs.drop 7) = none :=
        greedyCapture_none_of_no_view _ (containsSub_drop (c :: cs) viewPat 8 h)
      simp [gdMatch, hp, hg, ih htail]
    · have hp' : hasPrefixL filedPat (c :: cs) = false := by
        simpa using hp
      simp [gdMatch, hp', ih htail]

/-- C8 (counterexample): a URL whose file identifier segment `ABC` is
followed by a `/view` segment but whose tail contains a second `/view`: the
greedy capture of `/\/file\/d\/(.*)\/view/` extends to the last `/view`, so
the code produces `id=ABC/view` and not the claimed direct form carrying the
identifier `ABC`. -/
theorem convertGoogleDriveLink_greedy_counterexample :
    convertGoogleDriveLink ("https://drive.google.com/file/d/" ++ "ABC" ++ "/view" ++ "/view")
      = "https://drive.google.com/uc?export=download&id=" ++ "ABC/view" ∧
    "https://drive.google.com/uc?export=download&id=" ++ "ABC/view"
      ≠ "https://drive.google.com/uc?export=download&id=" ++ "ABC" := by
  constructor <;> decide

/-- C8 (amended): for every URL of the shape
`https://drive.google.com/file/d/<CAP>/view<rest>` where `<CAP>` is the
regex's greedy capture — newline-free text reaching to the *last* `/view`,
so `rest` contains no further `/view` — normalization yields exactly
`https://drive.google.com/uc?export=download&id=<CAP>` (with a single
`/view`, `<CAP>` is the file identifier segment); and every URL on which the
regex finds no match passes through unchanged, in particular any URL without
the `/file/d/` substring or without the `/view` substring. -/
theorem convertGoogleDriveLink_rewrite :
    (∀ cap post : String,
      cap.toList.all (fun c => c != '\n') = true →
      strContains post "/view" = false →
      convertGoogleDriveLink ("https://drive.google.com/file/d/" ++ cap ++ "/view" ++ post)
        = "https://drive.google.com/uc?export=download&id=" ++ cap) ∧
    (∀ link : String,
      strContains link "/file/d/" = false ∨ strContains link "/view" = false →
      convertGoogleDriveLink link = link) := by
  constructor
  · intro cap post hcap hpost
    have hpost' : containsSub ('v' :: 'i' :: 'e' :: 'w' :: post.toList) viewPat = false := hpost
    have happ : ∀ s t : String, (s ++ t).toList = s.toList ++ t.toList := fun s t =>
      String.data_append s t
    have htl : ("https://drive.google.com/file/d/" ++ cap ++ "/view" ++ post).toList
        = "https://drive.google.com/file/d/".toList
            ++ (cap.toList ++ ("/view".toList ++ post.toList)) := by
      rw [happ, happ, happ, List.append_assoc, List.append_assoc]
    have hmk : String.mk cap.toList = cap := by cases cap; rfl
    unfold convertGoogleDriveLink
    rw [htl, gdMatch_view cap.toList post.toList hcap hpost']
    exact congrArg (fun z => "https://drive.google.com/uc?export=download&id=" ++ z) hmk
  · intro link h
    unfold convertGoogleDriveLink
    rcases h with h | h
    · rw [gdMatch_none_of_not_contains link.toList h]
    · rw [gdMatch_none_of_no_view link.toList h]

/-- Witness for the amended C8: a realistic sharing URL (tail with `?` and
`=`), a view URL with a trailing slash, and the double-`/view` URL are all
rewritten with the greedy capture; `/file/d/` URLs whose following segment is
`preview` or `edit` and a plain non-Drive URL pass through unchanged. -/
theorem convertGoogleDriveLink_rewrite_witness :
    convertGoogleDriveLink "https://drive.google.com/file/d/A1-b_2/view?usp=sharing"
      = "https://drive.google.com/uc?export=download&id=A1-b_2" ∧
    convertGoogleDriveLink "https://drive.google.com/file/d/ABC/view/"
      = "https://drive.google.com/uc?export=download&id=ABC" ∧
    convertGoogleDriveLink "https://drive.google.com/file/d/ABC/view/view"
      = "https://drive.google.com/uc?export=download&id=ABC/view" ∧
    convertGoogleDriveLink "https://drive.google.com/file/d/ABC/preview"
      = "https://drive.google.com/file/d/ABC/preview" ∧
    convertGoogleDriveLink "https://drive.google.com/file/d/ABC/edit"
      = "https://drive.google.com/file/d/ABC/edit" ∧
    convertGoogleDriveLink "https://example.com/doc.pdf" = "https://example.com/doc.pdf" := by
  refine ⟨?_, ?_, ?_, ?_, ?_, ?_⟩
  · have h := convertGoogleDriveLink_rewrite.1 "A1-b_2" "?usp=sharing" (by decide) (by decide)
    rw [show ("https://drive.google.com/file/d/A1-b_2/view?usp=sharing" : String)
        = "https://drive.google.com/file/d/" ++ "A1-b_2" ++ "/view" ++ "?usp=sharing" from rfl]
    rw [h]
    rfl
  · have h := convertGoogleDriveLink_rewrite.1 "ABC" "/" (by decide) (by decide)
    rw [show ("https://drive.google.com/file/d/ABC/view/" : String)
        = "https://drive.google.com/file/d/" ++ "ABC" ++ "/view" ++ "/" from rfl]
    rw [h]
    rfl
  · have h := convertGoogleDriveLink_rewrite.1 "ABC/view" "" (by decide) (by decide)
    rw [show ("https://drive.google.com/file/d/ABC/view/view" : String)
        = "https://drive.google.com/file/d/" ++ "ABC/view" ++ "/view" ++ "" from rfl]
    rw [h]
    rfl
  · exact convertGoogleDriveLink_rewrite.2 _ (Or.inr (by decide))
  · exact convertGoogleDriveLink_rewrite.2 _ (Or.inr (by decide))
  · exact convertGoogleDriveLink_rewrite.2 _ (Or.inl (by decide))

end Bot

/-! ### Sanity checks of the embedding on concrete inputs -/

example : Bot.parseLinks "a, b\n\nc," = ["a", "b", "c"] := by decide
example : Bot.parseLinks "" = [] := by decide
example : Bot.parseLinks "  " = [] := by decide
example : Bot.convertGoogleDriveLink "https://drive.google.com/file/d/ABC/view?usp=s" =
    "https://drive.google.com/uc?export=download&id=ABC" := by decide
example : Bot.convertGoogleDriveLink "https://example.com/x.pdf" = "https://example.com/x.pdf" := by decide
example : Bot.gdMatch "/file/d/A/view/B/view".toList = some "A/view/B".toList := by decide
example : Bot.confirmMatch "xxconfirm=Tok_3&dl".toList = some "Tok_3".toList := by decide
example : Bot.confirmMatch "confirm=Tok3".toList = none := by decide
example : Bot.idMatch "https://drive.google.com/uc?export=download&id=ZZ&x=1".toList = some "ZZ".toList := by decide
example : Bot.idMatch "id=&id=Q".toList = some "Q".toList := by decide
example : Bot.settleOrder 3 [5, 5, 5] = [0, 1, 2] := by decide
example : Bot.settleOrder 3 [5, 1, 3] = [1, 2, 0] := by decide
example : Bot.promiseAll ["a", "b", "c"] [9, 1, 4] = ["a", "b", "c"] := by decide
example : Bot.mergePDFs (fun b => if b = "A" then [10] else [20]) ["A", "B"] [2, 1] = [20, 10] := by
  decide
example :
    Bot.handlePDFLinks ["x"] (fun _ => Except.error "net down") [0] true true
      = ⟨[Bot.Msg.failedList 1 ["x"], Bot.Msg.noValid], none⟩ := by decide
example :
    Bot.handlePDFLinks ["x"] (fun _ => Except.ok ⟨some "application/pdf", none, "B"⟩) [0] true true
      = ⟨[Bot.Msg.document, Bot.Msg.summary 1 0], some ["B"]⟩ := by decide
example :
    Bot.handleMessage "private" (some "") (fun _ => Except.error "e") [] true true = ([], 0) := by
  decide
